import Mathlib

/-!
# Verification of the firecracker-rce execution core

Shallow embedding of the three source files of the repository:

* src/unnamed/part_000  — the enhanced FirecrackerRunner class
  (capability flags, concurrency counter, result cache, three backends,
  cleanup, shutdown);
* src/firecracker-runner.js — the basic FirecrackerRunner class
  (direct execution with a concurrency counter);
* src/index.js — the HTTP handler with its own output cache.

JavaScript Maps are modelled as insertion-ordered association lists,
the process registry and the scratch directory as lists of names.
Promises of external commands are modelled by an explicit behaviour
record of the spawned program; a promise that never settles (a command
run without any timeout on a non-terminating program) makes the
embedded function return none.  Filesystem calls that the source
guards with catch handlers take explicit failure flags.
-/

/-- The uniform result record produced by every execution path
(success, output, error, mode, fromCache).  The per-backend identifier
fields of the source (vmID, containerId, executionId) are carried by no
claim and are omitted. -/
structure ExecResult where
  success : Bool
  output : String
  error : String
  mode : String
  fromCache : Bool := false
deriving Repr, DecidableEq

/-- Behaviour of the submitted code when run as a host process
(`node file`): running time in milliseconds (none = never terminates),
whether it exits with status 0, and its streams / failure message. -/
structure HostProg where
  time : Option Nat
  exitOk : Bool
  stdout : String
  stderr : String
  errMsg : String
deriving Repr, DecidableEq

/-- Outcome of util.promisify(exec) run with no timeout option:
the promise never settles if the command never terminates. -/
inductive ExecOut where
  | hangs
  | ok (stdout stderr : String)
  | fail (msg : String)
deriving Repr, DecidableEq

/-- execPromise(cmd) with no timeout option (part_000 line 149 and
firecracker-runner.js line 46). -/
def execPromiseNoTimeout (p : HostProg) : ExecOut :=
  match p.time with
  | none => ExecOut.hangs
  | some _ => if p.exitOk then ExecOut.ok p.stdout p.stderr else ExecOut.fail p.errMsg

/-- The needle character list is a prefix of the haystack. -/
def strStarts : List Char → List Char → Bool
  | [], _ => true
  | _ :: _, [] => false
  | a :: as, b :: bs => (a = b) && strStarts as bs

/-- The needle character list occurs somewhere in the haystack. -/
def strHas (needle : List Char) : List Char → Bool
  | [] => needle.isEmpty
  | a :: t => strStarts needle (a :: t) || strHas needle t

/-- JavaScript String.prototype.includes, modelled structurally so it
evaluates by kernel reduction. -/
def jsIncludes (s needle : String) : Bool :=
  strHas needle.data s.data

/-- JavaScript String.prototype.trim, modelled structurally (drop
whitespace from both ends) so it evaluates by kernel reduction. -/
def isJsSpace (c : Char) : Bool := c = ' ' || c = '\t' || c = '\n' || c = '\r'

/-- Strip leading and trailing whitespace. -/
def jsTrim (s : String) : String :=
  String.mk (((s.data.dropWhile isJsSpace).reverse.dropWhile isJsSpace).reverse)

/-- JavaScript Map.has. -/
def mapHas (m : List (String × ExecResult)) (k : String) : Bool :=
  m.any (fun e => e.1 = k)

/-- JavaScript Map.get (none = undefined). -/
def mapGet (m : List (String × ExecResult)) (k : String) : Option ExecResult :=
  (m.find? (fun e => e.1 = k)).map (fun e => e.2)

/-- JavaScript Map.set: update in place when the key is present
(keeping its insertion position), otherwise append at the end. -/
def mapSet (m : List (String × ExecResult)) (k : String) (v : ExecResult) :
    List (String × ExecResult) :=
  if mapHas m k then
    m.map (fun e => if e.1 = k then (k, v) else e)
  else
    m ++ [(k, v)]

/-- JavaScript Map.delete by key. -/
def mapDelete (m : List (String × ExecResult)) (k : String) :
    List (String × ExecResult) :=
  m.filter (fun e => e.1 != k)

/-- crypto.createHash('md5').update(code).digest('hex'): modelled as a
deterministic injective key derivation from the source text (actual md5
collisions are outside the model); only determinism and injectivity on
submitted texts are used. -/
def md5Hex (code : String) : String := code

namespace FirecrackerRunner

/-- Mutable fields of the enhanced FirecrackerRunner instance
(src/unnamed/part_000, constructor lines 12-28), plus the scratch
directory contents and the control-socket files it owns. -/
structure RunnerState where
  vmCount : Int
  maxVMs : Int := 3
  executionTimeout : Nat := 5000
  memoryLimit : Nat := 128
  useFirecracker : Bool := false
  useDocker : Bool := false
  processes : List String := []
  cache : List (String × ExecResult) := []
  scratch : List String := []
  sockFiles : List String := []
deriving Repr, DecidableEq

/-- Failure flags of the filesystem calls that the source wraps in
try/catch or .catch handlers. -/
structure FsEnv where
  writeCodeFails : Bool := false
  writeConfigFails : Bool := false
  removeCodeFails : Bool := false
  removeConfigFails : Bool := false
  unlinkSockFails : Bool := false
deriving Repr, DecidableEq

/-- Name of the code artifact in the scratch directory. -/
def codeFileName (id : String) : String := id ++ ".js"

/-- Name of the VM config artifact in the scratch directory. -/
def configFileName (id : String) : String := id ++ "-config.json"

/-- Name of the firecracker control socket under /tmp. -/
def sockFileName (id : String) : String := "firecracker-" ++ id ++ ".sock"

/-- Result returned when the pool is saturated (part_000 lines 82-89). -/
def queueFullResult : ExecResult :=
  { success := false, output := "",
    error := "Maximum number of concurrent VMs reached. Please try again later.",
    mode := "firecracker-queue-full" }

/-- The finally block of runWithFirecracker (part_000 lines 170-188):
terminate and deregister the tracked process if present, then attempt
each deletion with its own swallowed-failure handler, then decrement
the counter. -/
def fcCleanup (env : FsEnv) (id : String) (st : RunnerState) : RunnerState :=
  let st :=
    if st.processes.contains id then
      { st with processes := st.processes.filter (fun s => s != id) }
    else st
  let st :=
    if env.removeCodeFails then st
    else { st with scratch := st.scratch.filter (fun f => f != codeFileName id) }
  let st :=
    if env.removeConfigFails then st
    else { st with scratch := st.scratch.filter (fun f => f != configFileName id) }
  let st :=
    if env.unlinkSockFails then st
    else { st with sockFiles := st.sockFiles.filter (fun f => f != sockFileName id) }
  { st with vmCount := st.vmCount - 1 }

/-- runWithFirecracker (part_000 lines 81-190).  The host execution is
performed by execPromise with no timeout: if the submitted code never
terminates the promise never settles, so neither the catch nor the
finally block runs and the call never returns (modelled as none). -/
def runWithFirecracker (st : RunnerState) (code id codeHash : String)
    (host : HostProg) (env : FsEnv) : Option (ExecResult × RunnerState) :=
  let _ := code
  if st.vmCount ≥ st.maxVMs then
    some (queueFullResult, st)
  else
    let st1 := { st with vmCount := st.vmCount + 1 }
    if env.writeCodeFails then
      some ({ success := false, output := "", error := "write-code-failed",
              mode := "firecracker" }, fcCleanup env id st1)
    else
      let st2 := { st1 with scratch := codeFileName id :: st1.scratch }
      if env.writeConfigFails then
        some ({ success := false, output := "", error := "write-config-failed",
                mode := "firecracker" }, fcCleanup env id st2)
      else
        let st3 := { st2 with scratch := configFileName id :: st2.scratch }
        let st4 := { st3 with processes := id :: st3.processes,
                              sockFiles := sockFileName id :: st3.sockFiles }
        match execPromiseNoTimeout host with
        | ExecOut.hangs => none
        | ExecOut.ok out err =>
          let result : ExecResult :=
            { success := true, output := jsTrim out, error := jsTrim err,
              mode := "firecracker" }
          let st5 := { st4 with cache := mapSet st4.cache codeHash result }
          some (result, fcCleanup env id st5)
        | ExecOut.fail msg =>
          some ({ success := false, output := "", error := msg,
                  mode := "firecracker" }, fcCleanup env id st4)

/-- Outcome of the host-side docker invocation; the in-container
timeout(1) wrapper bounds the wait, so the promise always settles. -/
inductive CmdOut where
  | ok (stdout stderr : String)
  | fail (msg : String)
deriving Repr, DecidableEq

/-- The shell command of part_000 lines 204-213; its text contains the
word timeout, which matters for the catch-side classification. -/
def dockerCommand (timeoutMs : Nat) (codeFile : String) : String :=
  "docker run --rm --name code-exec --memory=128m --memory-swap=128m " ++
  "--cpus=0.5 --network none --security-opt=no-new-privileges -v " ++
  codeFile ++ ":/app/code.js:ro --workdir /app node:18-alpine timeout " ++
  toString (timeoutMs / 1000) ++ " node code.js"

/-- Host-side result of running the docker command: the wrapped
timeout(1) kills the workload at the budget, producing a non-zero exit
whose exec error message quotes the failed command text. -/
def runDocker (timeoutMs : Nat) (host : HostProg) (codeFile : String) : CmdOut :=
  match host.time with
  | none => CmdOut.fail ("Command failed: " ++ dockerCommand timeoutMs codeFile)
  | some t =>
    if t > timeoutMs then
      CmdOut.fail ("Command failed: " ++ dockerCommand timeoutMs codeFile)
    else if host.exitOk then
      CmdOut.ok host.stdout host.stderr
    else
      CmdOut.fail ("Command failed: " ++ dockerCommand timeoutMs codeFile ++
        "\n" ++ host.errMsg)

/-- runWithDocker (part_000 lines 193-246).  No capacity check on this
path.  The finally block removes the code artifact with a swallowed
failure and force-removes the container. -/
def runWithDocker (st : RunnerState) (code id codeHash : String)
    (host : HostProg) (env : FsEnv) : ExecResult × RunnerState :=
  let _ := code
  let cleanup := fun (s : RunnerState) =>
    if env.removeCodeFails then s
    else { s with scratch := s.scratch.filter (fun f => f != codeFileName id) }
  if env.writeCodeFails then
    ({ success := false, output := "", error := "write-code-failed",
       mode := "docker" }, cleanup st)
  else
    let st1 := { st with scratch := codeFileName id :: st.scratch }
    match runDocker st.executionTimeout host (codeFileName id) with
    | CmdOut.ok out err =>
      let result : ExecResult :=
        { success := true, output := jsTrim out, error := jsTrim err, mode := "docker" }
      (result, cleanup { st1 with cache := mapSet st1.cache codeHash result })
    | CmdOut.fail msg =>
      let isTimeout := jsIncludes msg "timeout" || jsIncludes msg "timed out"
      ({ success := false, output := "",
         error := if isTimeout then "Execution timed out" else msg,
         mode := "docker" }, cleanup st1)

/-- Behaviour of the submitted code inside the node vm sandbox:
synchronous running time, the lines it pushes through the injected
console sink, and whether it throws. -/
structure SandboxProg where
  time : Nat
  logs : List String
  errs : List String
  throwsMsg : Option String
deriving Repr, DecidableEq

/-- script.runInContext with the timeout option (part_000 lines
285-295): an execution exceeding the budget is interrupted with the
node timeout error; otherwise the script's own thrown error, if any,
propagates.  Returns the thrown message, none on normal completion. -/
def runInContext (budget : Nat) (p : SandboxProg) : Option String :=
  if p.time > budget then
    some ("Script execution timed out after " ++ toString budget ++ "ms")
  else
    p.throwsMsg

/-- runWithVMSandbox (part_000 lines 249-324). -/
def runWithVMSandbox (st : RunnerState) (code id codeHash : String)
    (p : SandboxProg) : ExecResult × RunnerState :=
  let _ := code
  let _ := id
  match runInContext st.executionTimeout p with
  | some msg =>
    let isTimeout := jsIncludes msg "Script execution timed out"
    ({ success := false, output := "",
       error := if isTimeout then "Execution timed out" else msg,
       mode := "vm-sandbox" }, st)
  | none =>
    let result : ExecResult :=
      { success := true, output := String.intercalate "\n" p.logs,
        error := String.intercalate "\n" p.errs, mode := "vm-sandbox" }
    (result, { st with cache := mapSet st.cache codeHash result })

/-- runJavaScript (part_000 lines 56-78): hash, cache check (a hit is
returned spread with fromCache true and no state change), then dispatch
on the capability flags.  The uuid is modelled as the caller-supplied
fresh identifier. -/
def runJavaScript (st : RunnerState) (code id : String)
    (host : HostProg) (sbx : SandboxProg) (env : FsEnv) :
    Option (ExecResult × RunnerState) :=
  let codeHash := md5Hex code
  match mapGet st.cache codeHash with
  | some cached => some ({ cached with fromCache := true }, st)
  | none =>
    if st.useFirecracker then
      runWithFirecracker st code id codeHash host env
    else if st.useDocker then
      some (runWithDocker st code id codeHash host env)
    else
      some (runWithVMSandbox st code id codeHash sbx)

/-- Failure flags of the calls that shutdown guards with try/catch;
kill failures are caught per process and only logged. -/
structure ShutdownEnv where
  killFails : Bool := false
  emptyDirFails : Bool := false
deriving Repr, DecidableEq

/-- shutdown (part_000 lines 334-357): best-effort kill of every
tracked process (each failure caught and logged), unconditional clear
of the registry, then emptyDir on the scratch directory with a caught
failure. -/
def shutdown (st : RunnerState) (env : ShutdownEnv) : RunnerState :=
  let st1 := { st with processes := [] }
  if env.emptyDirFails then st1 else { st1 with scratch := [] }

end FirecrackerRunner

namespace BasicRunner

/-- Mutable fields of the basic FirecrackerRunner instance
(src/firecracker-runner.js, constructor lines 10-20), plus the scratch
directory contents. -/
structure BState where
  vmCount : Int
  maxVMs : Int := 3
  processes : List String := []
  scratch : List String := []
deriving Repr, DecidableEq

/-- Result returned when the pool is saturated
(firecracker-runner.js lines 23-29); this early return carries no mode
field, modelled as the empty string. -/
def capacityResult : ExecResult :=
  { success := false, output := "",
    error := "Maximum number of concurrent VMs reached. Please try again later.",
    mode := "" }

/-- The finally block of runJavaScript (firecracker-runner.js lines
63-72): the decrement of vmCount is written AFTER the awaited
fs.remove INSIDE the same try, so when the removal throws, the catch
swallows the error and the decrement is skipped. -/
def cleanup (removeFails : Bool) (id : String) (st : BState) : BState :=
  if removeFails then st
  else
    { st with
      scratch := st.scratch.filter
        (fun f => f != FirecrackerRunner.codeFileName id),
      vmCount := st.vmCount - 1 }

/-- runJavaScript (firecracker-runner.js lines 22-73): capacity check,
increment, write the code artifact, run `node file` through execPromise
with no timeout (none when the submitted code never terminates), then
the finally block above. -/
def runJavaScript (st : BState) (code id : String) (host : HostProg)
    (writeFails removeFails : Bool) : Option (ExecResult × BState) :=
  let _ := code
  if st.vmCount ≥ st.maxVMs then
    some (capacityResult, st)
  else
    let st1 := { st with vmCount := st.vmCount + 1 }
    if writeFails then
      some ({ success := false, output := "", error := "write-code-failed",
              mode := "direct-execution" }, cleanup removeFails id st1)
    else
      let st2 :=
        { st1 with scratch := FirecrackerRunner.codeFileName id :: st1.scratch }
      match execPromiseNoTimeout host with
      | ExecOut.hangs => none
      | ExecOut.ok out err =>
        some ({ success := true, output := jsTrim out, error := jsTrim err,
                mode := "direct-execution" }, cleanup removeFails id st2)
      | ExecOut.fail msg =>
        some ({ success := false, output := "", error := msg,
                mode := "direct-execution" }, cleanup removeFails id st2)

end BasicRunner

namespace IndexServer

/-- State visible to the /execute handler (src/index.js): its own
output cache, the startup capability flag, and the runner it delegates
to (the module exported by ./firecracker-runner). -/
structure HttpState where
  outputCache : List (String × ExecResult) := []
  firecrackerAvailable : Bool := false
  runner : BasicRunner.BState
deriving Repr, DecidableEq

/-- Behaviour of the submitted code inside vm.runInNewContext of
executeLocalJS (index.js lines 30-60): this call passes no timeout
option, so a non-terminating script hangs the handler. -/
inductive LocalOut where
  | hangs
  | ok (captured : String)
  | throws (msg : String)
deriving Repr, DecidableEq

/-- executeLocalJS (index.js lines 30-60): capture console output,
return a success with empty error, or a failure with the thrown
message; none when the script never terminates. -/
def executeLocalJS (p : LocalOut) : Option ExecResult :=
  match p with
  | LocalOut.hangs => none
  | LocalOut.ok captured =>
    some { success := true, output := jsTrim captured, error := "", mode := "local" }
  | LocalOut.throws msg =>
    some { success := false, output := "", error := msg, mode := "local" }

/-- Responses the handler can send. -/
inductive HttpResponse where
  | badRequest (error : String)
  | okJson (r : ExecResult)
deriving Repr, DecidableEq

/-- The cache-store step of the handler (index.js lines 88-97): store
only when result.success and result.error is falsy (empty string); set
first, and when the size then exceeds 100 delete the earliest-inserted
key. -/
def storeAndEvict (cache : List (String × ExecResult)) (key : String)
    (result : ExecResult) : List (String × ExecResult) :=
  if result.success && result.error == "" then
    let c := mapSet cache key result
    if c.length > 100 then
      match c.head? with
      | some e => mapDelete c e.1
      | none => c
    else c
  else cache

/-- The /execute handler (index.js lines 62-103).  A falsy code field
(absent body entry or the empty string) is rejected with the
no-code-provided error before the hash, the cache lookup, or any
execution.  On a hit the stored result is sent as-is.  On a miss the
runner (with its mode overwritten to firecracker) or the local
fallback executes, and the result goes through the cache store. -/
def handleExecute (body : Option String) (st : HttpState) (id : String)
    (host : HostProg) (lp : LocalOut) (writeFails removeFails : Bool) :
    Option (HttpResponse × HttpState) :=
  match body with
  | none => some (HttpResponse.badRequest "No code provided", st)
  | some code =>
    if code = "" then
      some (HttpResponse.badRequest "No code provided", st)
    else
      let cacheKey := md5Hex code
      match mapGet st.outputCache cacheKey with
      | some cached => some (HttpResponse.okJson cached, st)
      | none =>
        let step : Option (ExecResult × HttpState) :=
          if st.firecrackerAvailable then
            match BasicRunner.runJavaScript st.runner code id host
                writeFails removeFails with
            | none => none
            | some (r, rst) =>
              some ({ r with mode := "firecracker" }, { st with runner := rst })
          else
            match executeLocalJS lp with
            | none => none
            | some r => some (r, st)
        match step with
        | none => none
        | some (result, st1) =>
          some (HttpResponse.okJson result,
            { st1 with outputCache := storeAndEvict st1.outputCache cacheKey result })

end IndexServer

/-! ### Concrete behaviours and states used by the theorems below -/

/-- A submitted program that never terminates (an unbounded loop). -/
def hostDiverging : HostProg :=
  { time := none, exitOk := true, stdout := "", stderr := "", errMsg := "" }

/-- A submitted program that exits cleanly after 10 ms printing 2. -/
def hostOk : HostProg :=
  { time := some 10, exitOk := true, stdout := "2", stderr := "", errMsg := "" }

/-- A submitted program that exits cleanly but writes a warning line on
stderr, so its result has success true and a non-empty error field. -/
def hostWarn : HostProg :=
  { time := some 5, exitOk := true, stdout := "out", stderr := "warn", errMsg := "" }

/-- A sandbox program that completes immediately with no output. -/
def sbxQuiet : FirecrackerRunner.SandboxProg :=
  { time := 0, logs := [], errs := [], throwsMsg := none }

/-- A sandbox program that logs one line and completes. -/
def sbxLogOne : FirecrackerRunner.SandboxProg :=
  { time := 1, logs := ["1"], errs := [], throwsMsg := none }

/-- A clean success record as accepted by the HTTP-layer cache store. -/
def cleanOkResult : ExecResult :=
  { success := true, output := "ok", error := "", mode := "local" }

/-- 101 pairwise distinct source texts. -/
def distinctCodes : List String := (List.range 101).map (fun n => toString n)

/-- The enhanced runner state after executing the 101 distinct sources
through the sandbox backend (each run a clean success, hence each
stored in the runner's internal cache). -/
def runnerStateAfter101 : FirecrackerRunner.RunnerState :=
  distinctCodes.foldl
    (fun s c =>
      match FirecrackerRunner.runJavaScript s c "id" hostOk sbxQuiet {} with
      | some p => p.2
      | none => s)
    { vmCount := 0 }

/-- The HTTP output cache after storing 101 distinct clean successes. -/
def httpCacheAfter101 : List (String × ExecResult) :=
  distinctCodes.foldl (fun c k => IndexServer.storeAndEvict c k cleanOkResult) []

/-- The result of a quiet sandbox execution: clean success with empty
output and empty error. -/
def sbxQuietResult : ExecResult :=
  { success := true, output := "", error := "", mode := "vm-sandbox" }

/-- Runner state holding the quiet sandbox result cached under the
digest of the source text x. -/
def stAfterQuiet : FirecrackerRunner.RunnerState :=
  { vmCount := 0, cache := [("x", sbxQuietResult)] }

/-- A sandbox program that throws a syntax-like error. -/
def sbxThrow : FirecrackerRunner.SandboxProg :=
  { time := 1, logs := [], errs := [], throwsMsg := some "SyntaxError" }

/-- The docker-path result after the in-container timeout killed the
workload. -/
def dockerTimeoutResult : ExecResult :=
  { success := false, output := "", error := "Execution timed out", mode := "docker" }

/-- The firecracker-path result of a clean host run printing 2. -/
def fcOkResult : ExecResult :=
  { success := true, output := "2", error := "", mode := "firecracker" }

/-- Runner state left behind by one clean firecracker-path execution of
source x under digest hh with fresh id idt: teardown removed the code,
config and socket artifacts and the registry entry; the cache holds the
stored result. -/
def stTeardown : FirecrackerRunner.RunnerState :=
  { vmCount := 0, cache := [("hh", fcOkResult)] }

/-- HTTP-handler state after one /execute call on source c1 through the
local fallback: the clean success with output hello is stored in the
output cache. -/
def httpStAfterC1 : IndexServer.HttpState :=
  match IndexServer.handleExecute (some "c1") { runner := { vmCount := 0 } }
      "idA" hostOk (IndexServer.LocalOut.ok "hello") false false with
  | some p => p.2
  | none => { runner := { vmCount := 0 } }

/-! ### Lemmas about the Map model -/

theorem find?_update_of_has (m : List (String × ExecResult)) (k : String)
    (v : ExecResult) (h : mapHas m k = true) :
    (m.map (fun e => if e.1 = k then (k, v) else e)).find? (fun e => e.1 = k) =
      some (k, v) := by
  induction m with
  | nil => simp [mapHas] at h
  | cons a t ih =>
    by_cases ha : a.1 = k
    · simp [ha]
    · have ht : mapHas t k = true := by simpa [mapHas, ha] using h
      simpa [ha] using ih ht

theorem find?_append_fresh (m : List (String × ExecResult)) (k : String)
    (v : ExecResult) (h : mapHas m k = false) :
    (m ++ [(k, v)]).find? (fun e => e.1 = k) = some (k, v) := by
  rw [List.find?_append]
  have hm : m.find? (fun e => e.1 = k) = none := by
    rw [List.find?_eq_none]
    intro x hx
    simp only [mapHas, List.any_eq_false] at h
    simpa using h x hx
  simp [hm]

/-- After a Map.set, the stored key retrieves the stored value. -/
theorem mapGet_mapSet (m : List (String × ExecResult)) (k : String)
    (v : ExecResult) : mapGet (mapSet m k v) k = some v := by
  by_cases h : mapHas m k = true
  · unfold mapGet mapSet
    rw [if_pos h, find?_update_of_has m k v h]
    rfl
  · have h' : mapHas m k = false := by simpa using h
    unfold mapGet mapSet
    rw [if_neg (by simp [h']), find?_append_fresh m k v h']
    rfl

/-- Every entry of a Map after a set was already present or is the
freshly stored pair. -/
theorem mem_mapSet {m : List (String × ExecResult)} {k : String}
    {v : ExecResult} {e : String × ExecResult} (h : e ∈ mapSet m k v) :
    e ∈ m ∨ e = (k, v) := by
  unfold mapSet at h
  split at h
  · rcases List.mem_map.mp h with ⟨a, ha, rfl⟩
    by_cases hk : a.1 = k
    · right; simp [hk]
    · left; simpa [hk] using ha
  · rcases List.mem_append.mp h with h1 | h1
    · exact Or.inl h1
    · right; simpa using h1

/-- Map.set either updates in place or appends one entry. -/
theorem length_mapSet (m : List (String × ExecResult)) (k : String)
    (v : ExecResult) :
    (mapSet m k v).length = m.length ∨ (mapSet m k v).length = m.length + 1 := by
  unfold mapSet
  split
  · left; simp
  · right; simp

/-! ### Lemmas about the firecracker finally block -/

theorem fcCleanup_cache (env : FirecrackerRunner.FsEnv) (id : String)
    (s : FirecrackerRunner.RunnerState) :
    (FirecrackerRunner.fcCleanup env id s).cache = s.cache := by
  unfold FirecrackerRunner.fcCleanup
  dsimp only
  split <;> split <;> split <;> split <;> rfl

theorem fcCleanup_processes (env : FirecrackerRunner.FsEnv) (id : String)
    (s : FirecrackerRunner.RunnerState) :
    id ∉ (FirecrackerRunner.fcCleanup env id s).processes := by
  unfold FirecrackerRunner.fcCleanup
  dsimp only
  split <;> split <;> split <;> split <;>
    simp_all [List.mem_filter, List.contains]

theorem fcCleanup_scratch_code (env : FirecrackerRunner.FsEnv) (id : String)
    (s : FirecrackerRunner.RunnerState) (h : env.removeCodeFails = false) :
    FirecrackerRunner.codeFileName id ∉
      (FirecrackerRunner.fcCleanup env id s).scratch := by
  unfold FirecrackerRunner.fcCleanup
  dsimp only
  split <;> split <;> split <;> split <;>
    simp_all [List.mem_filter]

theorem fcCleanup_scratch_config (env : FirecrackerRunner.FsEnv) (id : String)
    (s : FirecrackerRunner.RunnerState) (h : env.removeConfigFails = false) :
    FirecrackerRunner.configFileName id ∉
      (FirecrackerRunner.fcCleanup env id s).scratch := by
  unfold FirecrackerRunner.fcCleanup
  dsimp only
  split <;> split <;> split <;> split <;>
    simp_all [List.mem_filter]

theorem fcCleanup_sock (env : FirecrackerRunner.FsEnv) (id : String)
    (s : FirecrackerRunner.RunnerState) (h : env.unlinkSockFails = false) :
    FirecrackerRunner.sockFileName id ∉
      (FirecrackerRunner.fcCleanup env id s).sockFiles := by
  unfold FirecrackerRunner.fcCleanup
  dsimp only
  split <;> split <;> split <;> split <;>
    simp_all [List.mem_filter]

/-! ### Cache dichotomy: each backend either leaves the runner cache
unchanged (exactly when the produced result has success false) or
performs one Map.set of the produced success result under the digest. -/

theorem runWithFirecracker_cache
    {st : FirecrackerRunner.RunnerState} {code id hash : String}
    {host : HostProg} {env : FirecrackerRunner.FsEnv}
    {r : ExecResult} {st' : FirecrackerRunner.RunnerState}
    (h : FirecrackerRunner.runWithFirecracker st code id hash host env =
      some (r, st')) :
    (r.success = false ∧ st'.cache = st.cache) ∨
    (r.success = true ∧ st'.cache = mapSet st.cache hash r) := by
  unfold FirecrackerRunner.runWithFirecracker at h
  dsimp only at h
  split at h
  · injection h with h1
    injection h1 with hr hst
    subst hr; subst hst
    exact Or.inl ⟨rfl, rfl⟩
  · split at h
    · injection h with h1
      injection h1 with hr hst
      subst hr; subst hst
      exact Or.inl ⟨rfl, by rw [fcCleanup_cache]⟩
    · split at h
      · injection h with h1
        injection h1 with hr hst
        subst hr; subst hst
        exact Or.inl ⟨rfl, by rw [fcCleanup_cache]⟩
      · split at h
        · exact Option.noConfusion h
        · injection h with h1
          injection h1 with hr hst
          subst hr; subst hst
          exact Or.inr ⟨rfl, by rw [fcCleanup_cache]⟩
        · injection h with h1
          injection h1 with hr hst
          subst hr; subst hst
          exact Or.inl ⟨rfl, by rw [fcCleanup_cache]⟩

theorem runWithDocker_cache
    {st : FirecrackerRunner.RunnerState} {code id hash : String}
    {host : HostProg} {env : FirecrackerRunner.FsEnv}
    {r : ExecResult} {st' : FirecrackerRunner.RunnerState}
    (h : FirecrackerRunner.runWithDocker st code id hash host env = (r, st')) :
    (r.success = false ∧ st'.cache = st.cache) ∨
    (r.success = true ∧ st'.cache = mapSet st.cache hash r) := by
  unfold FirecrackerRunner.runWithDocker at h
  dsimp only at h
  split at h
  · injection h with hr hst
    subst hr; subst hst
    refine Or.inl ⟨rfl, ?_⟩
    split <;> rfl
  · split at h
    · injection h with hr hst
      subst hr; subst hst
      refine Or.inr ⟨rfl, ?_⟩
      split <;> rfl
    · injection h with hr hst
      subst hr; subst hst
      refine Or.inl ⟨rfl, ?_⟩
      split <;> rfl

theorem runWithVMSandbox_cache
    {st : FirecrackerRunner.RunnerState} {code id hash : String}
    {p : FirecrackerRunner.SandboxProg}
    {r : ExecResult} {st' : FirecrackerRunner.RunnerState}
    (h : FirecrackerRunner.runWithVMSandbox st code id hash p = (r, st')) :
    (r.success = false ∧ st'.cache = st.cache) ∨
    (r.success = true ∧ st'.cache = mapSet st.cache hash r) := by
  unfold FirecrackerRunner.runWithVMSandbox at h
  dsimp only at h
  split at h
  · injection h with hr hst
    subst hr; subst hst
    exact Or.inl ⟨rfl, rfl⟩
  · injection h with hr hst
    subst hr; subst hst
    exact Or.inr ⟨rfl, rfl⟩

/-- Every entry of the runner cache after a completed runJavaScript call
was already present before the call or carries success true. -/
theorem runJavaScript_cache_success
    {st : FirecrackerRunner.RunnerState} {code id : String} {host : HostProg}
    {sbx : FirecrackerRunner.SandboxProg} {env : FirecrackerRunner.FsEnv}
    {r : ExecResult} {st' : FirecrackerRunner.RunnerState}
    (h : FirecrackerRunner.runJavaScript st code id host sbx env = some (r, st')) :
    ∀ e ∈ st'.cache, e ∈ st.cache ∨ (e.2).success = true := by
  unfold FirecrackerRunner.runJavaScript at h
  dsimp only at h
  split at h
  · injection h with h1
    injection h1 with hr hst
    subst hst
    exact fun e he => Or.inl he
  · split at h
    · rcases runWithFirecracker_cache h with ⟨hs, hc⟩ | ⟨hs, hc⟩
      · exact fun e he => Or.inl (hc ▸ he)
      · intro e he
        rcases mem_mapSet (hc ▸ he) with h1 | h1
        · exact Or.inl h1
        · exact Or.inr (by rw [h1]; exact hs)
    · split at h
      · rcases hd : FirecrackerRunner.runWithDocker st code id (md5Hex code) host env
          with ⟨r2, s2⟩
        rw [hd] at h
        injection h with h1
        injection h1 with hr hst
        subst hr; subst hst
        rcases runWithDocker_cache hd with ⟨hs, hc⟩ | ⟨hs, hc⟩
        · exact fun e he => Or.inl (hc ▸ he)
        · intro e he
          rcases mem_mapSet (hc ▸ he) with h1 | h1
          · exact Or.inl h1
          · exact Or.inr (by rw [h1]; exact hs)
      · rcases hd : FirecrackerRunner.runWithVMSandbox st code id (md5Hex code) sbx
          with ⟨r2, s2⟩
        rw [hd] at h
        injection h with h1
        injection h1 with hr hst
        subst hr; subst hst
        rcases runWithVMSandbox_cache hd with ⟨hs, hc⟩ | ⟨hs, hc⟩
        · exact fun e he => Or.inl (hc ▸ he)
        · intro e he
          rcases mem_mapSet (hc ▸ he) with h1 | h1
          · exact Or.inl h1
          · exact Or.inr (by rw [h1]; exact hs)

/-- After a completed runJavaScript call whose result has success true,
the digest of the submitted text retrieves from the runner cache a
value with the same output. -/
theorem runJavaScript_stores_success
    {st : FirecrackerRunner.RunnerState} {code id : String} {host : HostProg}
    {sbx : FirecrackerRunner.SandboxProg} {env : FirecrackerRunner.FsEnv}
    {r : ExecResult} {st' : FirecrackerRunner.RunnerState}
    (h : FirecrackerRunner.runJavaScript st code id host sbx env = some (r, st'))
    (hs : r.success = true) :
    ∃ v, mapGet st'.cache (md5Hex code) = some v ∧ v.output = r.output := by
  unfold FirecrackerRunner.runJavaScript at h
  dsimp only at h
  split at h
  · rename_i cached hget
    injection h with h1
    injection h1 with hr hst
    subst hr; subst hst
    exact ⟨cached, hget, rfl⟩
  · rename_i hget
    split at h
    · rcases runWithFirecracker_cache h with ⟨hf, _⟩ | ⟨_, hc⟩
      · rw [hs] at hf; exact Bool.noConfusion hf
      · exact ⟨r, by rw [hc, mapGet_mapSet], rfl⟩
    · split at h
      · rcases hd : FirecrackerRunner.runWithDocker st code id (md5Hex code) host env
          with ⟨r2, s2⟩
        rw [hd] at h
        injection h with h1
        injection h1 with hr hst
        subst hr; subst hst
        rcases runWithDocker_cache hd with ⟨hf, _⟩ | ⟨_, hc⟩
        · rw [hs] at hf; exact Bool.noConfusion hf
        · exact ⟨r2, by rw [hc, mapGet_mapSet], rfl⟩
      · rcases hd : FirecrackerRunner.runWithVMSandbox st code id (md5Hex code) sbx
          with ⟨r2, s2⟩
        rw [hd] at h
        injection h with h1
        injection h1 with hr hst
        subst hr; subst hst
        rcases runWithVMSandbox_cache hd with ⟨hf, _⟩ | ⟨_, hc⟩
        · rw [hs] at hf; exact Bool.noConfusion hf
        · exact ⟨r2, by rw [hc, mapGet_mapSet], rfl⟩

/-! ### Claims -/

/-- C1: the claim says every backend returns a Timeout result within the
configured budget plus bounded grace and never blocks the caller.  On
the MicroVM path the code runs the submitted program through execPromise
with no timeout at all, so a non-terminating program makes the call hang
forever: it produces no result of any kind, in particular no Timeout. -/
theorem c1_microvm_path_hangs_on_divergent_code :
    FirecrackerRunner.runJavaScript
      { vmCount := 0, useFirecracker := true } "for(;;);" "id-1"
      hostDiverging sbxQuiet {} = none := rfl

/-- C2: the claim says the concurrency slot is released exactly once on
every exit path, so that a failing cleanup step can never starve the
pool.  In firecracker-runner.js the decrement of vmCount is placed after
the awaited fs.remove inside the same try of the finally block, so when
the removal fails the catch swallows the error and the decrement is
skipped: after a completed successful execution that started with
vmCount 0 the counter is still 1, a permanently leaked slot. -/
theorem c2_slot_leaked_when_cleanup_fails :
    (BasicRunner.runJavaScript { vmCount := 0 } "1+1" "id-2" hostOk false true).map
      (fun p => ((p.1).success, (p.2).vmCount)) = some (true, 1) := rfl

/-- C3 counterexample: the claim says the cache store is a no-op unless
the result is a clean success (empty error), hence no cached entry ever
has a non-empty error.  The enhanced runner's firecracker path stores
every result produced on the clean-exit path, including one whose error
field carries the non-empty stderr text warn. -/
theorem c3_counterexample_nonempty_error_cached :
    (FirecrackerRunner.runJavaScript
        { vmCount := 0, useFirecracker := true } "x" "id-3"
        hostWarn sbxQuiet {}).map
      (fun p => (p.2).cache.map (fun e => ((e.2).success, (e.2).error))) =
    some [(true, "warn")] := by decide

/-- C3 amended: the HTTP-layer cache store is a no-op unless the result
is a clean success (success true and empty error); the runner-internal
cache only guarantees the weaker half of the policy: no stored entry
ever has success false, but entries with success true and a non-empty
error (stderr text) are stored. -/
theorem c3_amended_store_policy :
    (∀ (cache : List (String × ExecResult)) (key : String) (r : ExecResult),
        r.success = false ∨ r.error ≠ "" →
        IndexServer.storeAndEvict cache key r = cache) ∧
    (∀ (st : FirecrackerRunner.RunnerState) (code id : String) (host : HostProg)
        (sbx : FirecrackerRunner.SandboxProg) (env : FirecrackerRunner.FsEnv)
        (r : ExecResult) (st' : FirecrackerRunner.RunnerState),
        FirecrackerRunner.runJavaScript st code id host sbx env = some (r, st') →
        ∀ e ∈ st'.cache, e ∈ st.cache ∨ (e.2).success = true) := by
  constructor
  · intro cache key r hr
    have hcond : (r.success && r.error == "") = false := by
      rcases hr with h | h
      · simp [h]
      · simp [h]
    simp [IndexServer.storeAndEvict, hcond]
  · intro st code id host sbx env r st' h
    exact runJavaScript_cache_success h

/-- Witness for the amended C3 statement at concrete inputs: a failing
result is not stored by the HTTP cache, and the entry stored by a
concrete quiet sandbox run carries success true. -/
theorem c3_amended_store_policy_witness :
    IndexServer.storeAndEvict [] "kk"
      { success := false, output := "", error := "boom", mode := "local" } = [] ∧
    (("x", sbxQuietResult) ∈ ([] : List (String × ExecResult)) ∨
      sbxQuietResult.success = true) := by
  refine ⟨c3_amended_store_policy.1 [] "kk" _ (Or.inl rfl), ?_⟩
  exact c3_amended_store_policy.2 { vmCount := 0 } "x" "idw" hostOk sbxQuiet {}
    sbxQuietResult stAfterQuiet rfl ("x", sbxQuietResult) (by decide)

/-- C4 counterexample: the claim says a saturated pool makes the call
return CapacityExceeded immediately, without executing the code,
regardless of the selected backend.  With the pool saturated (vmCount
equal to maxVMs 3) and the container backend selected, the call instead
executes the code: it returns a successful docker-mode result and the
runner cache gains the stored entry. -/
theorem c4_counterexample_docker_ignores_gate :
    (FirecrackerRunner.runJavaScript
        { vmCount := 3, useDocker := true } "y" "id-4" hostOk sbxQuiet {}).map
      (fun p => ((p.1).mode, (p.1).success, (p.2).cache.length)) =
    some ("docker", true, 1) := by decide

/-- C4 amended: only the MicroVM path checks the gate: when the
firecracker backend is selected, a cache miss under saturation returns
the queue-full result immediately with the state unchanged (no slot
consumed, no backend invoked); the container and sandbox backends
contain no capacity check at all — their results do not depend on the
slot counter. -/
theorem c4_amended_gate_only_on_microvm :
    (∀ (st : FirecrackerRunner.RunnerState) (code id : String) (host : HostProg)
        (sbx : FirecrackerRunner.SandboxProg) (env : FirecrackerRunner.FsEnv),
        st.useFirecracker = true →
        mapGet st.cache (md5Hex code) = none →
        st.vmCount ≥ st.maxVMs →
        FirecrackerRunner.runJavaScript st code id host sbx env =
          some (FirecrackerRunner.queueFullResult, st)) ∧
    (∀ (st : FirecrackerRunner.RunnerState) (c : Int) (code id hash : String)
        (host : HostProg) (env : FirecrackerRunner.FsEnv),
        (FirecrackerRunner.runWithDocker
          { st with vmCount := c } code id hash host env).1 =
        (FirecrackerRunner.runWithDocker st code id hash host env).1) ∧
    (∀ (st : FirecrackerRunner.RunnerState) (c : Int) (code id hash : String)
        (sbx : FirecrackerRunner.SandboxProg),
        (FirecrackerRunner.runWithVMSandbox
          { st with vmCount := c } code id hash sbx).1 =
        (FirecrackerRunner.runWithVMSandbox st code id hash sbx).1) := by
  refine ⟨?_, ?_, ?_⟩
  · intro st code id host sbx env hf hmiss hsat
    unfold FirecrackerRunner.runJavaScript FirecrackerRunner.runWithFirecracker
    dsimp only
    rw [hmiss]
    dsimp only
    simp [hf, hsat]
  · intro st c code id hash host env
    unfold FirecrackerRunner.runWithDocker
    dsimp only
    split
    · rfl
    · split <;> rfl
  · intro st c code id hash sbx
    unfold FirecrackerRunner.runWithVMSandbox
    dsimp only
    split <;> rfl

/-- Witness for the amended C4 statement at concrete inputs. -/
theorem c4_amended_gate_only_on_microvm_witness :
    FirecrackerRunner.runJavaScript
      { vmCount := 3, useFirecracker := true } "z" "id-5" hostOk sbxQuiet {} =
      some (FirecrackerRunner.queueFullResult,
        { vmCount := 3, useFirecracker := true }) ∧
    (FirecrackerRunner.runWithDocker
      { vmCount := 3 } "z" "id-5" "z" hostOk {}).1 =
    (FirecrackerRunner.runWithDocker
      { vmCount := 0 } "z" "id-5" "z" hostOk {}).1 := by
  constructor
  · exact c4_amended_gate_only_on_microvm.1
      { vmCount := 3, useFirecracker := true } "z" "id-5" hostOk sbxQuiet {}
      rfl rfl (by decide)
  · exact c4_amended_gate_only_on_microvm.2.1 { vmCount := 0 } 3 "z" "id-5" "z"
      hostOk {}

set_option maxRecDepth 10000

/-- C5 counterexample: the claim says the cache size never exceeds the
configured capacity (100 in the code) and inserting capacity + 1
distinct clean successes evicts the earliest entry.  The runner's
internal cache has no capacity bound and no eviction: after 101
executions of distinct sources its size is 101 and the earliest entry
is still retrievable. -/
theorem c5_counterexample_runner_cache_unbounded :
    runnerStateAfter101.cache.length = 101 ∧
    (mapGet runnerStateAfter101.cache (md5Hex "0")).isSome = true := by decide

/-- C5 amended: the bounded-FIFO behaviour holds only for the
HTTP-layer output cache: a store never leaves it with more than 100
entries, and after storing 101 distinct clean successes its size is
100, the earliest-inserted key is gone and all 100 later keys remain
retrievable; the runner-internal cache is unbounded. -/
theorem c5_amended_http_cache_fifo :
    (∀ (cache : List (String × ExecResult)) (key : String) (r : ExecResult),
        cache.length ≤ 100 →
        (IndexServer.storeAndEvict cache key r).length ≤ 100) ∧
    (httpCacheAfter101.length = 100 ∧
     mapGet httpCacheAfter101 (md5Hex "0") = none ∧
     (((List.range 101).drop 1).all
        (fun n => (mapGet httpCacheAfter101 (toString n)).isSome)) = true) := by
  constructor
  · intro cache key r h
    unfold IndexServer.storeAndEvict
    split
    · dsimp only
      split
      · rename_i hlen
        rcases hh : (mapSet cache key r).head? with _ | e
        · rw [List.head?_eq_none_iff] at hh
          rw [hh] at hlen
          simp at hlen
        · dsimp only
          have he : e ∈ mapSet cache key r :=
            List.mem_of_mem_head? (hh ▸ rfl)
          have hle := List.length_filter_le
            (fun x => x.1 != e.1) (mapSet cache key r)
          have hne : ((mapSet cache key r).filter
              (fun x => x.1 != e.1)).length ≠ (mapSet cache key r).length := by
            intro heq
            have hall := List.filter_length_eq_length.mp heq e he
            simp at hall
          have hlt : (mapDelete (mapSet cache key r) e.1).length <
              (mapSet cache key r).length :=
            Nat.lt_of_le_of_ne hle hne
          rcases length_mapSet cache key r with hm | hm
          · omega
          · omega
      · rename_i hlen
        rcases length_mapSet cache key r with hm | hm
        · omega
        · omega
    · exact h
  · exact ⟨by decide, by decide, by decide⟩

/-- Witness for the amended C5 statement: the bound applied at a
concrete store. -/
theorem c5_amended_http_cache_fifo_witness :
    (IndexServer.storeAndEvict [] "k0" cleanOkResult).length ≤ 100 :=
  c5_amended_http_cache_fifo.1 [] "k0" cleanOkResult (by decide)

/-- C6 counterexample: the claim says the second byte-identical
submission returns a result with fromCache true.  On the HTTP handler
(the pipeline index.js actually wires), the first call on source c1
yields a clean success with output hello, and the second identical call
is served from the output cache — the output is hello although the
local sandbox would now produce other, and the state is unchanged — but
the returned result carries fromCache false: index.js sends the stored
record verbatim and never sets a fromCache flag. -/
theorem c6_counterexample_http_hit_lacks_fromcache :
    IndexServer.handleExecute (some "c1") { runner := { vmCount := 0 } } "idA"
        hostOk (IndexServer.LocalOut.ok "hello") false false =
      some (IndexServer.HttpResponse.okJson
        { success := true, output := "hello", error := "", mode := "local" },
        httpStAfterC1) ∧
    IndexServer.handleExecute (some "c1") httpStAfterC1 "idB" hostOk
        (IndexServer.LocalOut.ok "other") false false =
      some (IndexServer.HttpResponse.okJson
        { success := true, output := "hello", error := "", mode := "local",
          fromCache := false }, httpStAfterC1) := by
  constructor
  · decide
  · decide

/-- C6 amended: after a first call yielding a success, a byte-identical
resubmission is served from the cache with output identical to the
first result and without invoking any backend, at both layers; only the
runner-level execute (part_000) additionally flags the served result
with fromCache true — the HTTP handler (index.js) returns the stored
record verbatim, setting no fromCache flag, its state unchanged and its
outcome independent of the runner, host and sandbox behaviours. -/
theorem c6_amended_cache_hit_behaviour :
    (∀ (st : FirecrackerRunner.RunnerState) (code id id2 : String)
        (host host2 : HostProg) (sbx sbx2 : FirecrackerRunner.SandboxProg)
        (env env2 : FirecrackerRunner.FsEnv) (r : ExecResult)
        (st1 : FirecrackerRunner.RunnerState),
        FirecrackerRunner.runJavaScript st code id host sbx env = some (r, st1) →
        r.success = true →
        (FirecrackerRunner.runJavaScript st1 code id2 host2 sbx2 env2).isSome =
          true ∧
        ∀ (r2 : ExecResult) (st2 : FirecrackerRunner.RunnerState),
          FirecrackerRunner.runJavaScript st1 code id2 host2 sbx2 env2 =
            some (r2, st2) →
          r2.fromCache = true ∧ r2.output = r.output ∧ st2 = st1) ∧
    (∀ (st : IndexServer.HttpState) (code id : String) (host : HostProg)
        (lp : IndexServer.LocalOut) (wf rf : Bool) (cached : ExecResult),
        code ≠ "" →
        mapGet st.outputCache (md5Hex code) = some cached →
        IndexServer.handleExecute (some code) st id host lp wf rf =
          some (IndexServer.HttpResponse.okJson cached, st)) := by
  constructor
  · intro st code id id2 host host2 sbx sbx2 env env2 r st1 h hs
    obtain ⟨v, hv, hout⟩ := runJavaScript_stores_success h hs
    constructor
    · unfold FirecrackerRunner.runJavaScript
      dsimp only
      rw [hv]
      rfl
    · intro r2 st2 h2
      unfold FirecrackerRunner.runJavaScript at h2
      dsimp only at h2
      rw [hv] at h2
      injection h2 with h3
      injection h3 with hr hst
      subst hr
      subst hst
      exact ⟨rfl, hout, rfl⟩
  · intro st code id host lp wf rf cached hne hget
    unfold IndexServer.handleExecute
    dsimp only
    rw [if_neg hne, hget]

/-- Witness for the amended C6 statement: the runner-level conclusion
instantiated at a concrete quiet sandbox execution and resubmission,
and the handler-level conclusion at the concrete cached c1 state. -/
theorem c6_amended_cache_hit_behaviour_witness :
    (ExecResult.fromCache { sbxQuietResult with fromCache := true } = true ∧
     ExecResult.output { sbxQuietResult with fromCache := true } =
       ExecResult.output sbxQuietResult ∧
     stAfterQuiet = stAfterQuiet) ∧
    IndexServer.handleExecute (some "c1") httpStAfterC1 "idB" hostOk
        (IndexServer.LocalOut.ok "other") false false =
      some (IndexServer.HttpResponse.okJson
        { success := true, output := "hello", error := "", mode := "local" },
        httpStAfterC1) := by
  constructor
  · have h := c6_amended_cache_hit_behaviour.1 { vmCount := 0 } "x" "idw1" "idw2"
      hostOk hostOk sbxQuiet sbxQuiet {} {} sbxQuietResult stAfterQuiet rfl rfl
    exact h.2 { sbxQuietResult with fromCache := true } stAfterQuiet rfl
  · exact c6_amended_cache_hit_behaviour.2 httpStAfterC1 "c1" "idB" hostOk
      (IndexServer.LocalOut.ok "other") false false
      { success := true, output := "hello", error := "", mode := "local" }
      (by decide) (by decide)

/-- C7: on every returning exit path of the firecracker backend
(capacity rejection, write failure, execution success, execution
failure), for a fresh execution id the teardown leaves no registry
entry for the id, and each artifact deletion depends only on its own
failure flag — a failing sub-step never prevents the other deletions —
so whenever a deletion sub-step succeeds the corresponding artifact
(code file, config file, control socket) is absent afterwards; the
container backend likewise always attempts the code-artifact removal. -/
theorem c7_unconditional_teardown :
    (∀ (st : FirecrackerRunner.RunnerState) (code id hash : String)
        (host : HostProg) (env : FirecrackerRunner.FsEnv) (r : ExecResult)
        (st' : FirecrackerRunner.RunnerState),
        id ∉ st.processes →
        FirecrackerRunner.codeFileName id ∉ st.scratch →
        FirecrackerRunner.configFileName id ∉ st.scratch →
        FirecrackerRunner.sockFileName id ∉ st.sockFiles →
        FirecrackerRunner.runWithFirecracker st code id hash host env =
          some (r, st') →
        id ∉ st'.processes ∧
        (env.removeCodeFails = false →
          FirecrackerRunner.codeFileName id ∉ st'.scratch) ∧
        (env.removeConfigFails = false →
          FirecrackerRunner.configFileName id ∉ st'.scratch) ∧
        (env.unlinkSockFails = false →
          FirecrackerRunner.sockFileName id ∉ st'.sockFiles)) ∧
    (∀ (st : FirecrackerRunner.RunnerState) (code id hash : String)
        (host : HostProg) (env : FirecrackerRunner.FsEnv),
        env.removeCodeFails = false →
        FirecrackerRunner.codeFileName id ∉
          ((FirecrackerRunner.runWithDocker st code id hash host env).2).scratch) := by
  constructor
  · intro st code id hash host env r st' hp hfc hfg hfs h
    unfold FirecrackerRunner.runWithFirecracker at h
    dsimp only at h
    split at h
    · injection h with h1
      injection h1 with hr hst
      subst hst
      exact ⟨hp, fun _ => hfc, fun _ => hfg, fun _ => hfs⟩
    · split at h
      · injection h with h1
        injection h1 with hr hst
        subst hst
        exact ⟨fcCleanup_processes _ _ _,
          fun hc => fcCleanup_scratch_code _ _ _ hc,
          fun hc => fcCleanup_scratch_config _ _ _ hc,
          fun hc => fcCleanup_sock _ _ _ hc⟩
      · split at h
        · injection h with h1
          injection h1 with hr hst
          subst hst
          exact ⟨fcCleanup_processes _ _ _,
            fun hc => fcCleanup_scratch_code _ _ _ hc,
            fun hc => fcCleanup_scratch_config _ _ _ hc,
            fun hc => fcCleanup_sock _ _ _ hc⟩
        · split at h
          · exact Option.noConfusion h
          · injection h with h1
            injection h1 with hr hst
            subst hst
            exact ⟨fcCleanup_processes _ _ _,
              fun hc => fcCleanup_scratch_code _ _ _ hc,
              fun hc => fcCleanup_scratch_config _ _ _ hc,
              fun hc => fcCleanup_sock _ _ _ hc⟩
          · injection h with h1
            injection h1 with hr hst
            subst hst
            exact ⟨fcCleanup_processes _ _ _,
              fun hc => fcCleanup_scratch_code _ _ _ hc,
              fun hc => fcCleanup_scratch_config _ _ _ hc,
              fun hc => fcCleanup_sock _ _ _ hc⟩
  · intro st code id hash host env hc
    unfold FirecrackerRunner.runWithDocker
    dsimp only
    split
    · simp [hc, List.mem_filter]
    · split <;> simp [hc, List.mem_filter]

/-- Witness for C7 at a concrete clean firecracker execution and a
concrete container execution. -/
theorem c7_unconditional_teardown_witness :
    "idt" ∉ stTeardown.processes ∧
    FirecrackerRunner.codeFileName "idt" ∉ stTeardown.scratch ∧
    FirecrackerRunner.configFileName "idt" ∉ stTeardown.scratch ∧
    FirecrackerRunner.sockFileName "idt" ∉ stTeardown.sockFiles ∧
    FirecrackerRunner.codeFileName "idt" ∉
      ((FirecrackerRunner.runWithDocker
        { vmCount := 0 } "x" "idt" "hh" hostOk {}).2).scratch := by
  have h := c7_unconditional_teardown.1 { vmCount := 0 } "x" "idt" "hh" hostOk {}
    fcOkResult stTeardown (by decide) (by decide) (by decide) (by decide) (by decide)
  exact ⟨h.1, h.2.1 rfl, h.2.2.1 rfl, h.2.2.2 rfl,
    c7_unconditional_teardown.2 { vmCount := 0 } "x" "idt" "hh" hostOk {} rfl⟩

/-- C8: a shutdown whose scratch-directory emptying succeeds leaves the
process registry empty and the scratch directory empty, and a second
shutdown from that state — with any outcome of its own sub-steps — is
an error-free no-op: it returns the state unchanged. -/
theorem c8_shutdown_idempotent
    (st : FirecrackerRunner.RunnerState)
    (env env2 : FirecrackerRunner.ShutdownEnv)
    (h : env.emptyDirFails = false) :
    (FirecrackerRunner.shutdown st env).processes = [] ∧
    (FirecrackerRunner.shutdown st env).scratch = [] ∧
    FirecrackerRunner.shutdown (FirecrackerRunner.shutdown st env) env2 =
      FirecrackerRunner.shutdown st env := by
  unfold FirecrackerRunner.shutdown
  dsimp only
  rw [if_neg (by simp [h])]
  refine ⟨rfl, rfl, ?_⟩
  split <;> rfl

/-- Witness for C8 at a concrete dirty state, with the second shutdown
taken in the environment where the directory emptying fails. -/
theorem c8_shutdown_idempotent_witness :
    (FirecrackerRunner.shutdown
      { vmCount := 1, processes := ["a"], scratch := ["f.js"] } {}).processes = [] ∧
    (FirecrackerRunner.shutdown
      { vmCount := 1, processes := ["a"], scratch := ["f.js"] } {}).scratch = [] ∧
    FirecrackerRunner.shutdown
      (FirecrackerRunner.shutdown
        { vmCount := 1, processes := ["a"], scratch := ["f.js"] } {})
      { emptyDirFails := true } =
    FirecrackerRunner.shutdown
      { vmCount := 1, processes := ["a"], scratch := ["f.js"] } {} :=
  c8_shutdown_idempotent
    { vmCount := 1, processes := ["a"], scratch := ["f.js"] } {}
    { emptyDirFails := true } rfl

/-- C9: every result produced with success false — the capacity
rejections, the write failures, the execution failures and the timeout
classifications, on each of the five result-producing paths — carries
the empty string as its output field. -/
theorem c9_failed_results_have_empty_output :
    (∀ (st : FirecrackerRunner.RunnerState) (code id hash : String)
        (host : HostProg) (env : FirecrackerRunner.FsEnv) (r : ExecResult)
        (st' : FirecrackerRunner.RunnerState),
        FirecrackerRunner.runWithFirecracker st code id hash host env =
          some (r, st') →
        r.success = false → r.output = "") ∧
    (∀ (st : FirecrackerRunner.RunnerState) (code id hash : String)
        (host : HostProg) (env : FirecrackerRunner.FsEnv) (r : ExecResult)
        (st' : FirecrackerRunner.RunnerState),
        FirecrackerRunner.runWithDocker st code id hash host env = (r, st') →
        r.success = false → r.output = "") ∧
    (∀ (st : FirecrackerRunner.RunnerState) (code id hash : String)
        (sbx : FirecrackerRunner.SandboxProg) (r : ExecResult)
        (st' : FirecrackerRunner.RunnerState),
        FirecrackerRunner.runWithVMSandbox st code id hash sbx = (r, st') →
        r.success = false → r.output = "") ∧
    (∀ (st : BasicRunner.BState) (code id : String) (host : HostProg)
        (wf rf : Bool) (r : ExecResult) (st' : BasicRunner.BState),
        BasicRunner.runJavaScript st code id host wf rf = some (r, st') →
        r.success = false → r.output = "") ∧
    (∀ (p : IndexServer.LocalOut) (r : ExecResult),
        IndexServer.executeLocalJS p = some r →
        r.success = false → r.output = "") := by
  refine ⟨?_, ?_, ?_, ?_, ?_⟩
  · intro st code id hash host env r st' h hf
    unfold FirecrackerRunner.runWithFirecracker at h
    dsimp only at h
    split at h
    · injection h with h1
      injection h1 with hr hst
      subst hr
      rfl
    · split at h
      · injection h with h1
        injection h1 with hr hst
        subst hr
        rfl
      · split at h
        · injection h with h1
          injection h1 with hr hst
          subst hr
          rfl
        · split at h
          · exact Option.noConfusion h
          · injection h with h1
            injection h1 with hr hst
            subst hr
            simp at hf
          · injection h with h1
            injection h1 with hr hst
            subst hr
            rfl
  · intro st code id hash host env r st' h hf
    unfold FirecrackerRunner.runWithDocker at h
    dsimp only at h
    split at h
    · injection h with hr hst
      subst hr
      rfl
    · split at h
      · injection h with hr hst
        subst hr
        simp at hf
      · injection h with hr hst
        subst hr
        rfl
  · intro st code id hash sbx r st' h hf
    unfold FirecrackerRunner.runWithVMSandbox at h
    dsimp only at h
    split at h
    · injection h with hr hst
      subst hr
      rfl
    · injection h with hr hst
      subst hr
      simp at hf
  · intro st code id host wf rf r st' h hf
    unfold BasicRunner.runJavaScript at h
    dsimp only at h
    split at h
    · injection h with h1
      injection h1 with hr hst
      subst hr
      rfl
    · split at h
      · injection h with h1
        injection h1 with hr hst
        subst hr
        rfl
      · split at h
        · exact Option.noConfusion h
        · injection h with h1
          injection h1 with hr hst
          subst hr
          simp at hf
        · injection h with h1
          injection h1 with hr hst
          subst hr
          rfl
  · intro p r h hf
    cases p with
    | hangs => exact Option.noConfusion h
    | ok captured =>
      injection h with h1
      subst h1
      simp at hf
    | throws msg =>
      injection h with h1
      subst h1
      rfl

/-- Witness for C9: each conjunct applied at a concrete failing run. -/
theorem c9_failed_results_have_empty_output_witness :
    FirecrackerRunner.queueFullResult.output = "" ∧
    dockerTimeoutResult.output = "" ∧
    ExecResult.output
      { success := false, output := "", error := "SyntaxError",
        mode := "vm-sandbox" } = "" ∧
    BasicRunner.capacityResult.output = "" ∧
    ExecResult.output
      { success := false, output := "", error := "boom", mode := "local" } = "" := by
  refine ⟨?_, ?_, ?_, ?_, ?_⟩
  · exact c9_failed_results_have_empty_output.1 { vmCount := 3 } "x" "i1" "h1"
      hostOk {} FirecrackerRunner.queueFullResult { vmCount := 3 } rfl rfl
  · exact c9_failed_results_have_empty_output.2.1 { vmCount := 0 } "x" "i2" "h2"
      hostDiverging {} dockerTimeoutResult { vmCount := 0 } (by decide) rfl
  · exact c9_failed_results_have_empty_output.2.2.1 { vmCount := 0 } "x" "i3" "h3"
      sbxThrow _ { vmCount := 0 } (by decide) rfl
  · exact c9_failed_results_have_empty_output.2.2.2.1 { vmCount := 3 } "x" "i4"
      hostOk false false BasicRunner.capacityResult { vmCount := 3 } rfl rfl
  · exact c9_failed_results_have_empty_output.2.2.2.2
      (IndexServer.LocalOut.throws "boom") _ rfl rfl

/-- C10: a request whose code field is absent and a request whose code
field is the empty string are handled identically: the handler rejects
both with the no-code-provided error, the state is unchanged, and the
outcome does not depend on the runner, the host behaviour or the local
sandbox behaviour — no hashing, no cache access and no backend
invocation take place. -/
theorem c10_empty_code_rejected (st : IndexServer.HttpState) (id : String)
    (host : HostProg) (lp : IndexServer.LocalOut) (wf rf : Bool) :
    IndexServer.handleExecute none st id host lp wf rf =
      some (IndexServer.HttpResponse.badRequest "No code provided", st) ∧
    IndexServer.handleExecute (some "") st id host lp wf rf =
      some (IndexServer.HttpResponse.badRequest "No code provided", st) :=
  ⟨rfl, rfl⟩
